import Mathlib

/-
  Verification of the WavPlayer firmware core.

  Shallow embedding of the repository's data path:
    - the double-buffered stream engine (src/main.rs interrupt DMA1_STREAM4
      together with src/audio_buffer.rs),
    - the RIFF chunk walker (src/riff.rs),
    - the WAV stream cursor (src/wav.rs),
    - the exFAT volume reader (src/exfat.rs).

  Machine integers are embedded as Nat with explicit reduction modulo 2^32
  (resp. 2^64) at every operation where the Rust release-build wrapping
  semantics can differ from plain Nat arithmetic.  Bytes delivered by the
  block device have Rust type u8, so every byte read out of a device buffer
  is reduced modulo 256.  The block device itself is embedded as a function
  from block address to an optional byte buffer; a missing buffer is a
  failed read, matching the Result returned by BlockDevice::read_block.
-/

namespace WavPlayer

set_option maxRecDepth 20000

def pow2_32 : Nat := 4294967296

def pow2_64 : Nat := 18446744073709551616

/-! ## bytes.rs -/

/-- One byte of a device buffer; out-of-range indices read as 0, matching
get_bytes_section, whose output array is zero-initialised. -/
def byteAt (b : List Nat) (i : Nat) : Nat := b.getD i 0 % 256

/-- BytesTrait::get_bytes_section: N bytes starting at start_byte. -/
def get_bytes_section (b : List Nat) (start n : Nat) : List Nat :=
  (List.range n).map (fun i => byteAt b (start + i))

/-- Little-endian value of a byte list (u16/u32/u64::from_le_bytes). -/
def leVal : List Nat → Nat
  | [] => 0
  | x :: rest => x + 256 * leVal rest

def le16 (b : List Nat) (o : Nat) : Nat := leVal (get_bytes_section b o 2)

def le32 (b : List Nat) (o : Nat) : Nat := leVal (get_bytes_section b o 4)

def le64 (b : List Nat) (o : Nat) : Nat := leVal (get_bytes_section b o 8)

/-- Block size of the sd card (main.rs), also used as the exFAT sector size. -/
def BLOCK_SIZE : Nat := 512

/-! ## binary_helpers.rs -/

/-- bit_on: whether the given bit is set ((num & (1 << bit)) != 0). -/
def bit_on (num bit : Nat) : Bool := num.testBit bit

/-! ## audio_buffer.rs and the stream engine of main.rs -/

inductive AudioBufState where
  | Filling
  | Filled
  | Playing
  | Empty
deriving DecidableEq, Fintype

/-- DbufInfo: the two slot states; index 0 is s0, index 1 is s1. -/
structure DbufInfo where
  s0 : AudioBufState
  s1 : AudioBufState
deriving DecidableEq, Fintype

/-- Slot index: false is buffer 0, true is buffer 1 (usize 0/1 in the code,
manipulated only by the xor-with-1 flip). -/
def getState (db : DbufInfo) (i : Bool) : AudioBufState := cond i db.s1 db.s0

def setState (db : DbufInfo) (i : Bool) (v : AudioBufState) : DbufInfo :=
  cond i { db with s1 := v } { db with s0 := v }

/-- DbufInfo::find_buffer: index of the first buffer in the given state. -/
def find_buffer (db : DbufInfo) (m : AudioBufState) : Option Bool :=
  if db.s0 = m then some false else if db.s1 = m then some true else none

/-- What the interrupt handler hands to Transfer::next_transfer. -/
inductive TransferTarget where
  | slotBuf (i : Bool)
  | silence
deriving DecidableEq

/-- The DMA1_STREAM4 interrupt handler (the consumer) of main.rs.
transfer_ok is whether Transfer::next_transfer succeeded; transfer_complete
is the value of transfer.flags().is_transfer_complete() (the handler also
fires on fifo errors, since fifo_error_interrupt(true) is configured).
Returns the new slot states and the buffer handed to next_transfer, if
any. -/
def dma1_stream4 (db : DbufInfo) (transfer_ok transfer_complete : Bool) :
    DbufInfo × Option TransferTarget :=
  match find_buffer db .Filled with
  | some play_indx =>
    if transfer_ok then
      (setState (setState db play_indx .Playing) (not play_indx) .Empty,
       some (.slotBuf play_indx))
    else
      (db, some (.slotBuf play_indx))
  | none =>
    if transfer_complete then (db, some .silence) else (db, none)

/-- One transition of the stream engine: the producer loop of main.rs claims
the first Empty slot (marking it Filling), or publishes a slot it filled
(Filling becomes Filled), or the consumer interrupt runs. -/
inductive Step : DbufInfo → DbufInfo → Prop where
  | claimFill (db : DbufInfo) (i : Bool) :
      find_buffer db .Empty = some i → Step db (setState db i .Filling)
  | finishFill (db : DbufInfo) (i : Bool) :
      getState db i = .Filling → Step db (setState db i .Filled)
  | consumer (db : DbufInfo) (tok tc : Bool) :
      Step db (dma1_stream4 db tok tc).1

/-- States reachable from the start-up value of G_DBUF_INFO:
buf_states = [Playing, Empty]. -/
inductive Reachable : DbufInfo → Prop where
  | init : Reachable ⟨.Playing, .Empty⟩
  | step (db db' : DbufInfo) : Reachable db → Step db db' → Reachable db'

def atMostOnePlaying (db : DbufInfo) : Prop :=
  db.s0 = .Playing → db.s1 ≠ .Playing

instance (db : DbufInfo) : Decidable (atMostOnePlaying db) := by
  unfold atMostOnePlaying; infer_instance

lemma claimFill_preserves : ∀ (db : DbufInfo) (i : Bool),
    find_buffer db .Empty = some i → atMostOnePlaying db →
    atMostOnePlaying (setState db i .Filling) := by decide

lemma finishFill_preserves : ∀ (db : DbufInfo) (i : Bool),
    getState db i = .Filling → atMostOnePlaying db →
    atMostOnePlaying (setState db i .Filled) := by decide

lemma consumer_preserves : ∀ (db : DbufInfo) (tok tc : Bool),
    atMostOnePlaying db → atMostOnePlaying (dma1_stream4 db tok tc).1 := by
  decide

/-- C1: in every state of the two-slot engine reachable from the initial
[Playing, Empty] condition by producer steps and consumer steps, at most one
slot is Playing; and whenever a consumer invocation moves a slot from Filled
to Playing, that same invocation moves the complementary slot to Empty. -/
theorem c1_at_most_one_playing :
    (∀ db : DbufInfo, Reachable db → atMostOnePlaying db) ∧
    (∀ (db : DbufInfo) (tok tc : Bool) (i : Bool),
      getState db i = .Filled →
      getState (dma1_stream4 db tok tc).1 i = .Playing →
      getState (dma1_stream4 db tok tc).1 (not i) = .Empty) := by
  constructor
  · intro db h
    induction h with
    | init => decide
    | step db db' _ hs ih =>
      cases hs with
      | claimFill i hf => exact claimFill_preserves db i hf ih
      | finishFill i hf => exact finishFill_preserves db i hf ih
      | consumer tok tc => exact consumer_preserves db tok tc ih
  · decide

theorem c1_at_most_one_playing_witness :
    atMostOnePlaying ⟨.Empty, .Playing⟩ ∧
    getState (dma1_stream4 ⟨.Filled, .Empty⟩ true true).1 true = .Empty := by
  constructor
  · exact c1_at_most_one_playing.1 ⟨.Empty, .Playing⟩
      (Reachable.step _ _
        (Reachable.step _ _
          (Reachable.step _ _ Reachable.init
            (Step.claimFill ⟨.Playing, .Empty⟩ true (by decide)))
          (Step.finishFill ⟨.Playing, .Filling⟩ true (by decide)))
        (Step.consumer ⟨.Playing, .Filled⟩ true true))
  · exact c1_at_most_one_playing.2 ⟨.Filled, .Empty⟩ true true false
      (by decide) (by decide)

/-- C8 counterexample: an underrun invocation of the consumer in which the
transfer-complete flag is clear (the handler also fires on fifo errors)
selects no buffer at all, so the silence buffer is not always selected in an
underrun. -/
theorem c8_counterexample_flag_clear_underrun :
    find_buffer ⟨.Empty, .Empty⟩ .Filled = none ∧
    (dma1_stream4 ⟨.Empty, .Empty⟩ true false).2 ≠ some .silence ∧
    (dma1_stream4 ⟨.Empty, .Empty⟩ true false).1 = ⟨.Empty, .Empty⟩ := by
  decide

/-- C8 (amended): in every consumer invocation with no Filled slot, both slot
states are left unchanged, and the silence buffer is selected as the next
transfer target exactly when the transfer-complete flag is set (when it is
clear, nothing is handed to the transfer). -/
theorem c8_underrun_silence :
    ∀ (db : DbufInfo) (tok tc : Bool),
      find_buffer db .Filled = none →
      (dma1_stream4 db tok tc).1 = db ∧
      (dma1_stream4 db tok tc).2 = (if tc then some .silence else none) := by
  decide

theorem c8_underrun_silence_witness :
    (dma1_stream4 ⟨.Empty, .Empty⟩ true true).1 = ⟨.Empty, .Empty⟩ ∧
    (dma1_stream4 ⟨.Empty, .Empty⟩ true true).2 =
      (if true then some .silence else none) :=
  c8_underrun_silence ⟨.Empty, .Empty⟩ true true (by decide)

/-! ## riff.rs -/

/-- The 4-character chunk identifiers, as their ASCII byte values.  The code
decodes the four header bytes with decode_ascii (each u8 cast to char) and
compares the result with the string literals RIFF, LIST, WAVE; for these
all-ASCII targets that comparison holds exactly when the four raw bytes are
the corresponding ASCII codes, which is how identifiers are embedded here. -/
def RIFF_ID : List Nat := [82, 73, 70, 70]

def LIST_ID : List Nat := [76, 73, 83, 84]

def WAVE_ID : List Nat := [87, 65, 86, 69]

def FMT_ID : List Nat := [102, 109, 116, 32]

def DATA_ID : List Nat := [100, 97, 116, 97]

structure ChunkInfo where
  identifier : List Nat
  length : Nat
  chunk_start : Nat
  next_chunk : Nat
deriving DecidableEq

/-- The header-kind dependent advance of get_next_chunk: the offset of the
chunk following a chunk with this identifier, length and start offset
(u64 arithmetic). -/
def chunk_advance (identifier : List Nat) (length cur : Nat) : Nat :=
  if identifier = RIFF_ID ∨ identifier = LIST_ID then (cur + 8) % pow2_64
  else if identifier = WAVE_ID then (cur + 4) % pow2_64
  else (cur + 8 + length) % pow2_64

/-- ChunkInfo::get_next_chunk.  Offsets are u64, block addresses u32 (the
cast of offset_blocks to u32 and the address addition wrap mod 2^32, the
offset additions wrap mod 2^64). -/
def get_next_chunk (dev : Nat → Option (List Nat)) (start_block_address : Nat)
    (self : ChunkInfo) : Option ChunkInfo :=
  let offset_blocks := self.next_chunk / BLOCK_SIZE
  let relevant_block_addr := (start_block_address + offset_blocks % pow2_32) % pow2_32
  match dev relevant_block_addr with
  | none => none
  | some relevant_block =>
    let next_chunk_in_block := self.next_chunk - offset_blocks * BLOCK_SIZE
    let identifier := get_bytes_section relevant_block next_chunk_in_block 4
    let length := le32 relevant_block (next_chunk_in_block + 4)
    some ⟨identifier, length, self.next_chunk,
          chunk_advance identifier length self.next_chunk⟩

/-- riff::get_first_chunk: walk from a zeroed seed chunk. -/
def get_first_chunk (dev : Nat → Option (List Nat)) (start_block_address : Nat) :
    Option ChunkInfo :=
  get_next_chunk dev start_block_address ⟨[], 0, 0, 0⟩

lemma get_bytes_section_succ (b : List Nat) (s n : Nat) :
    get_bytes_section b s (n + 1) = byteAt b s :: get_bytes_section b (s + 1) n := by
  simp only [get_bytes_section, List.range_succ_eq_map, List.map_cons, List.map_map,
    Nat.add_zero]
  congr 1
  apply List.map_congr_left
  intro i _
  simp [Function.comp, Nat.add_comm, Nat.add_assoc, Nat.add_left_comm]

lemma byteAt_lt (b : List Nat) (i : Nat) : byteAt b i < 256 :=
  Nat.mod_lt _ (by norm_num)

lemma leVal_get_bytes_section_lt (b : List Nat) :
    ∀ (n s : Nat), leVal (get_bytes_section b s n) < 256 ^ n := by
  intro n
  induction n with
  | zero => intro s; simp [get_bytes_section, leVal]
  | succ m ih =>
    intro s
    rw [get_bytes_section_succ]
    have h1 := byteAt_lt b s
    have h2 := ih (s + 1)
    simp only [leVal]
    calc byteAt b s + 256 * leVal (get_bytes_section b (s + 1) m)
        ≤ 255 + 256 * leVal (get_bytes_section b (s + 1) m) := by omega
      _ < 256 ^ (m + 1) := by
          have : 256 * leVal (get_bytes_section b (s + 1) m) + 256 ≤ 256 * 256 ^ m := by
            have := Nat.succ_le_of_lt h2
            calc 256 * leVal (get_bytes_section b (s + 1) m) + 256
                = 256 * (leVal (get_bytes_section b (s + 1) m) + 1) := by ring
              _ ≤ 256 * 256 ^ m := Nat.mul_le_mul_left _ this
          have hp : 256 ^ (m + 1) = 256 * 256 ^ m := by ring
          omega

lemma le32_lt (b : List Nat) (o : Nat) : le32 b o < pow2_32 := by
  have := leVal_get_bytes_section_lt b 4 o
  simpa [le32, pow2_32] using this

lemma get_next_chunk_some (dev : Nat → Option (List Nat)) (start : Nat)
    (self ci : ChunkInfo) (h : get_next_chunk dev start self = some ci) :
    ci.chunk_start = self.next_chunk ∧
    ci.next_chunk = chunk_advance ci.identifier ci.length self.next_chunk ∧
    ci.length < pow2_32 := by
  simp only [get_next_chunk] at h
  rcases hdev : dev ((start + self.next_chunk / BLOCK_SIZE % pow2_32) % pow2_32) with
    _ | blk
  · rw [hdev] at h
    exact Option.noConfusion h
  · rw [hdev] at h
    rcases ci with ⟨cid, clen, ccs, cnx⟩
    simp only [Option.some.injEq, ChunkInfo.mk.injEq] at h
    obtain ⟨hid, hlen, hcs, hnx⟩ := h
    subst hid
    subst hlen
    subst hcs
    subst hnx
    exact ⟨rfl, rfl, le32_lt blk _⟩

/-- The synthetic RIFF file of the chunk-walk test: outer RIFF header with
size 1036, WAVE form tag, fmt chunk of length 16, data chunk of length
1000. -/
def riff_block : List Nat :=
  RIFF_ID ++ [12, 4, 0, 0] ++ WAVE_ID ++
  FMT_ID ++ [16, 0, 0, 0] ++ List.replicate 16 0 ++
  DATA_ID ++ [232, 3, 0, 0]

def riff_dev : Nat → Option (List Nat) := fun a =>
  if a = 0 then some riff_block else none

/-- C4: the chunk walker advances by 8 bytes after a RIFF or LIST header, by
4 bytes after the WAVE form tag, and by 8 + declared length after any other
chunk (for identifiers of ASCII bytes, where the byte-level embedding of the
char-level decode_ascii comparison is exact); walking the synthetic buffer
(outer RIFF, WAVE tag, fmt chunk, data chunk) visits those four headers in
order at offsets 0, 8, 12 and 36 with next offsets 8, 12, 36 and 1044, as
produced by that rule. -/
theorem c4_chunk_walk_rule :
    (∀ (dev : Nat → Option (List Nat)) (start : Nat) (self ci : ChunkInfo),
      get_next_chunk dev start self = some ci →
      self.next_chunk + 8 + pow2_32 < pow2_64 →
      (∀ b ∈ ci.identifier, b < 128) →
      ci.chunk_start = self.next_chunk ∧
      ((ci.identifier = RIFF_ID ∨ ci.identifier = LIST_ID) →
        ci.next_chunk = ci.chunk_start + 8) ∧
      (ci.identifier = WAVE_ID → ci.next_chunk = ci.chunk_start + 4) ∧
      (ci.identifier ≠ RIFF_ID → ci.identifier ≠ LIST_ID → ci.identifier ≠ WAVE_ID →
        ci.next_chunk = ci.chunk_start + 8 + ci.length)) ∧
    (∃ c1 c2 c3 c4 : ChunkInfo,
      get_first_chunk riff_dev 0 = some c1 ∧ c1.identifier = RIFF_ID ∧
        c1.chunk_start = 0 ∧ c1.next_chunk = 8 ∧
      get_next_chunk riff_dev 0 c1 = some c2 ∧ c2.identifier = WAVE_ID ∧
        c2.chunk_start = 8 ∧ c2.next_chunk = 12 ∧
      get_next_chunk riff_dev 0 c2 = some c3 ∧ c3.identifier = FMT_ID ∧
        c3.chunk_start = 12 ∧ c3.length = 16 ∧ c3.next_chunk = 36 ∧
      get_next_chunk riff_dev 0 c3 = some c4 ∧ c4.identifier = DATA_ID ∧
        c4.chunk_start = 36 ∧ c4.length = 1000 ∧ c4.next_chunk = 1044) := by
  constructor
  · intro dev start self ci h hb _
    obtain ⟨hcs, hnx, hlen⟩ := get_next_chunk_some dev start self ci h
    refine ⟨hcs, ?_, ?_, ?_⟩
    · intro hid
      rw [hnx, hcs, chunk_advance, if_pos hid]
      exact Nat.mod_eq_of_lt (by simp only [pow2_32, pow2_64] at hb ⊢; omega)
    · intro hid
      have hnr : ¬(ci.identifier = RIFF_ID ∨ ci.identifier = LIST_ID) := by
        rw [hid]; decide
      rw [hnx, hcs, chunk_advance, if_neg hnr, if_pos hid]
      exact Nat.mod_eq_of_lt (by simp only [pow2_32, pow2_64] at hb ⊢; omega)
    · intro h1 h2 h3
      rw [hnx, hcs, chunk_advance, if_neg (by tauto), if_neg h3]
      exact Nat.mod_eq_of_lt (by simp only [pow2_32, pow2_64] at hb hlen ⊢; omega)
  · refine ⟨⟨RIFF_ID, 1036, 0, 8⟩, ⟨WAVE_ID, 544501094, 8, 12⟩, ⟨FMT_ID, 16, 12, 36⟩,
      ⟨DATA_ID, 1000, 36, 1044⟩, ?_⟩
    decide

theorem c4_chunk_walk_rule_witness :
    (⟨DATA_ID, 1000, 36, 1044⟩ : ChunkInfo).next_chunk =
      (⟨DATA_ID, 1000, 36, 1044⟩ : ChunkInfo).chunk_start + 8 +
        (⟨DATA_ID, 1000, 36, 1044⟩ : ChunkInfo).length :=
  (c4_chunk_walk_rule.1 riff_dev 0 ⟨[], 0, 36, 36⟩ ⟨DATA_ID, 1000, 36, 1044⟩
    (by decide) (by decide) (by decide)).2.2.2 (by decide) (by decide) (by decide)

/-! ## wav.rs -/

inductive Format where
  | Pcm
  | IeeeFloat
  | Alaw
  | Mulaw
  | Other
deriving DecidableEq

/-- Format::decode_format over the u16 format code. -/
def decode_format (format_code : Nat) : Format :=
  match format_code with
  | 1 => .Pcm
  | 3 => .IeeeFloat
  | 6 => .Alaw
  | 7 => .Alaw
  | _ => .Other

/-- WavFile: all fields are machine integers of the widths in the source
(u32 for the cursor fields, u16 for the format fields). -/
structure WavFile where
  start_block_address : Nat
  data_length : Nat
  first_byte : Nat
  bytes_read : Nat
  format : Format
  n_channels : Nat
  sample_rate : Nat
  byte_rate : Nat
  block_align : Nat
  bits_per_sample : Nat
  bytes_per_channel : Nat
deriving DecidableEq

/-- WavFile::get_next_pcm_block.  The return value pairs the updated cursor
(self is a &mut borrow, so the bytes_read mutation survives an Err return)
with the address of the block copied into the caller's buffer, or none for
Err.  The recursive self-call on the first read is given explicit fuel: the
Rust code recurses unboundedly (it diverges if first_byte is a multiple of
the block size, when the alignment step leaves bytes_read at 0), while this
embedding gives up and returns the current cursor once the fuel is spent;
fuel 2 is enough for every terminating execution.  u32 arithmetic wraps
modulo 2^32 as in a release build. -/
def get_next_pcm_block (dev : Nat → Option (List Nat)) :
    Nat → WavFile → WavFile × Option Nat
  | 0, w => (w, none)
  | fuel + 1, w =>
    if w.bytes_read = 0 then
      get_next_pcm_block dev fuel
        { w with bytes_read := (BLOCK_SIZE + pow2_32 - w.first_byte % pow2_32) % pow2_32 }
    else
      let new_bytes_read := (w.bytes_read + BLOCK_SIZE) % pow2_32
      if w.data_length ≤ new_bytes_read then (w, none)
      else
        let blockaddr :=
          (w.start_block_address + ((w.first_byte + w.bytes_read) % pow2_32) / BLOCK_SIZE)
            % pow2_32
        match dev blockaddr with
        | none => (w, none)
        | some _ => ({ w with bytes_read := new_bytes_read }, some blockaddr)

/-- C10: the format decoder maps code 1 to PCM, 3 to IEEE float, and both 6
and 7 to A-law; every other code maps to Other, and no code at all decodes
to the mu-law kind. -/
theorem c10_decode_format_no_mulaw :
    decode_format 1 = .Pcm ∧ decode_format 3 = .IeeeFloat ∧
    decode_format 6 = .Alaw ∧ decode_format 7 = .Alaw ∧
    (∀ c : Nat, decode_format c ≠ .Mulaw) ∧
    (∀ c : Nat, c ≠ 1 → c ≠ 3 → c ≠ 6 → c ≠ 7 → decode_format c = .Other) := by
  refine ⟨rfl, rfl, rfl, rfl, ?_, ?_⟩
  · intro c
    rcases c with _ | _ | _ | _ | _ | _ | _ | _ | c <;> simp [decode_format]
  · intro c h1 h3 h6 h7
    rcases c with _ | _ | _ | _ | _ | _ | _ | _ | c <;> simp_all [decode_format]

theorem c10_decode_format_no_mulaw_witness :
    decode_format 5 = .Other :=
  c10_decode_format_no_mulaw.2.2.2.2.2 5 (by decide) (by decide) (by decide) (by decide)

/-- C2: on a freshly opened file (bytes_read = 0, with the first sample byte
inside the first block), the first invocation of get_next_pcm_block is the
alignment step, advancing bytes_read by block size minus the first-byte
offset and then performing one ordinary read, and the block it returns is
the one after the start block, never the start block holding the chunk
header; an ordinary call (bytes_read not 0) whose end-of-data test passes
and whose device read succeeds returns the block at
start + (first_byte + bytes_read) / block size and advances bytes_read by
one block size; and an ordinary call with bytes_read + block size reaching
or exceeding data_length fails, leaving the cursor unchanged (so the final
partial block is never returned and every subsequent call fails too). -/
theorem c2_get_next_pcm_block_spec :
    (∀ (dev : Nat → Option (List Nat)) (fuel : Nat) (w : WavFile),
      w.bytes_read = 0 → w.first_byte < BLOCK_SIZE →
      get_next_pcm_block dev (fuel + 1) w =
        get_next_pcm_block dev fuel
          { w with bytes_read := BLOCK_SIZE - w.first_byte }) ∧
    (∀ (dev : Nat → Option (List Nat)) (w : WavFile) (a : Nat),
      w.bytes_read = 0 → w.first_byte < BLOCK_SIZE →
      w.start_block_address + 1 < pow2_32 →
      (get_next_pcm_block dev 2 w).2 = some a →
      a = w.start_block_address + 1 ∧ a ≠ w.start_block_address) ∧
    (∀ (dev : Nat → Option (List Nat)) (w : WavFile) (b : List Nat) (fuel : Nat),
      w.bytes_read ≠ 0 →
      w.data_length < pow2_32 →
      w.bytes_read + BLOCK_SIZE < w.data_length →
      w.first_byte + w.bytes_read < pow2_32 →
      w.start_block_address + (w.first_byte + w.bytes_read) / BLOCK_SIZE < pow2_32 →
      dev (w.start_block_address + (w.first_byte + w.bytes_read) / BLOCK_SIZE) = some b →
      get_next_pcm_block dev (fuel + 1) w =
        ({ w with bytes_read := w.bytes_read + BLOCK_SIZE },
         some (w.start_block_address + (w.first_byte + w.bytes_read) / BLOCK_SIZE))) ∧
    (∀ (dev : Nat → Option (List Nat)) (w : WavFile) (fuel : Nat),
      w.bytes_read ≠ 0 →
      w.bytes_read + BLOCK_SIZE < pow2_32 →
      w.data_length ≤ w.bytes_read + BLOCK_SIZE →
      get_next_pcm_block dev (fuel + 1) w = (w, none)) := by
  have hbs : BLOCK_SIZE = 512 := rfl
  have h32 : pow2_32 = 4294967296 := rfl
  refine ⟨?_, ?_, ?_, ?_⟩
  · intro dev fuel w h0 hfb
    have hbr : (BLOCK_SIZE + pow2_32 - w.first_byte % pow2_32) % pow2_32 =
        BLOCK_SIZE - w.first_byte := by
      simp only [hbs, h32] at hfb ⊢
      omega
    rw [get_next_pcm_block, if_pos h0, hbr]
  · intro dev w a h0 hfb hsa h
    rw [get_next_pcm_block, if_pos h0] at h
    have hbr : (BLOCK_SIZE + pow2_32 - w.first_byte % pow2_32) % pow2_32 =
        BLOCK_SIZE - w.first_byte := by
      simp only [hbs, h32] at hfb ⊢
      omega
    rw [hbr] at h
    rw [get_next_pcm_block] at h
    simp only at h
    by_cases hz : BLOCK_SIZE - w.first_byte = 0
    · simp only [hbs] at hz hfb; omega
    · rw [if_neg hz] at h
      by_cases hend : w.data_length ≤ (BLOCK_SIZE - w.first_byte + BLOCK_SIZE) % pow2_32
      · rw [if_pos hend] at h
        exact absurd h (by simp)
      · rw [if_neg hend] at h
        have haddr : (w.start_block_address +
            ((w.first_byte + (BLOCK_SIZE - w.first_byte)) % pow2_32) / BLOCK_SIZE) % pow2_32 =
            w.start_block_address + 1 := by
          simp only [hbs, h32] at hfb hsa ⊢
          omega
        rw [haddr] at h
        rcases hdev : dev (w.start_block_address + 1) with _ | blk <;> rw [hdev] at h
        · exact absurd h (by simp)
        · simp only [Option.some.injEq] at h
          omega
  · intro dev w b fuel hnz hdl hlt hfb hsa hdev
    rw [get_next_pcm_block, if_neg hnz]
    have hnbr : (w.bytes_read + BLOCK_SIZE) % pow2_32 = w.bytes_read + BLOCK_SIZE := by
      simp only [hbs, h32] at hdl hlt ⊢
      omega
    simp only [hnbr]
    rw [if_neg (by omega)]
    have haddr : (w.start_block_address +
        ((w.first_byte + w.bytes_read) % pow2_32) / BLOCK_SIZE) % pow2_32 =
        w.start_block_address + (w.first_byte + w.bytes_read) / BLOCK_SIZE := by
      simp only [hbs, h32] at hfb hsa ⊢
      omega
    rw [haddr, hdev]
  · intro dev w fuel hnz hno hend
    rw [get_next_pcm_block, if_neg hnz]
    have hnbr : (w.bytes_read + BLOCK_SIZE) % pow2_32 = w.bytes_read + BLOCK_SIZE := by
      simp only [hbs, h32] at hno ⊢
      omega
    simp only [hnbr]
    rw [if_pos hend]

def cursor_fresh : WavFile := ⟨7, 10000, 44, 0, .Pcm, 2, 44100, 176400, 4, 16, 2⟩

def cursor_mid : WavFile := ⟨7, 10000, 44, 512, .Pcm, 2, 44100, 176400, 4, 16, 2⟩

def cursor_end : WavFile := ⟨7, 600, 44, 512, .Pcm, 2, 44100, 176400, 4, 16, 2⟩

def dev_all_blocks : Nat → Option (List Nat) := fun _ => some []

theorem c2_get_next_pcm_block_spec_witness :
    (get_next_pcm_block dev_all_blocks 2 cursor_fresh =
      get_next_pcm_block dev_all_blocks 1
        { cursor_fresh with bytes_read := BLOCK_SIZE - cursor_fresh.first_byte }) ∧
    ((8 : Nat) = cursor_fresh.start_block_address + 1 ∧
      (8 : Nat) ≠ cursor_fresh.start_block_address) ∧
    (get_next_pcm_block dev_all_blocks 1 cursor_mid =
      ({ cursor_mid with bytes_read := cursor_mid.bytes_read + BLOCK_SIZE },
       some (cursor_mid.start_block_address +
         (cursor_mid.first_byte + cursor_mid.bytes_read) / BLOCK_SIZE))) ∧
    (get_next_pcm_block dev_all_blocks 1 cursor_end = (cursor_end, none)) :=
  ⟨c2_get_next_pcm_block_spec.1 dev_all_blocks 1 cursor_fresh rfl (by decide),
   c2_get_next_pcm_block_spec.2.1 dev_all_blocks cursor_fresh 8 rfl (by decide) (by decide)
     (by decide),
   c2_get_next_pcm_block_spec.2.2.1 dev_all_blocks cursor_mid [] 0 (by decide) (by decide)
     (by decide) (by decide) (by decide) rfl,
   c2_get_next_pcm_block_spec.2.2.2 dev_all_blocks cursor_end 0 (by decide) (by decide)
     (by decide)⟩

def c3_cursor : WavFile := ⟨10, 100, 44, 0, .Pcm, 2, 44100, 176400, 4, 16, 2⟩

/-- C3 counterexample: on a data chunk of 100 bytes with the first sample
byte at offset 44, the very first read call runs the alignment step, setting
bytes_read to 468, and then fails -- leaving the consumed-count strictly
greater than the declared data length, so bytes_read does not stay bounded
by data_length. -/
theorem c3_counterexample_alignment_overshoot :
    (get_next_pcm_block (fun _ => none) 2 c3_cursor).1.bytes_read = 468 ∧
    c3_cursor.data_length = 100 ∧
    ¬((get_next_pcm_block (fun _ => none) 2 c3_cursor).1.bytes_read ≤
        c3_cursor.data_length) ∧
    (get_next_pcm_block (fun _ => none) 2 c3_cursor).2 = none := by
  decide

/-- C3 (amended): bytes_read is monotonically non-decreasing across calls
(while it cannot wrap, i.e. bytes_read + block size stays below 2^32); and
for every call on an already aligned cursor (bytes_read not 0), bytes_read
never exceeds data_length: if it was within the declared length before the
call it still is afterwards, and a successful call even leaves it strictly
below data_length (the read fails before the bound would be passed).  The
first-call alignment step alone can push bytes_read beyond data_length when
the data chunk is shorter than the remainder of its first block. -/
theorem c3_bytes_read_monotone_bounded :
    (∀ (dev : Nat → Option (List Nat)) (fuel : Nat) (w : WavFile),
      w.bytes_read + BLOCK_SIZE < pow2_32 →
      w.bytes_read ≤ (get_next_pcm_block dev fuel w).1.bytes_read) ∧
    (∀ (dev : Nat → Option (List Nat)) (fuel : Nat) (w : WavFile),
      w.bytes_read ≠ 0 → w.bytes_read ≤ w.data_length →
      (get_next_pcm_block dev fuel w).1.bytes_read ≤ w.data_length ∧
      (∀ a, (get_next_pcm_block dev fuel w).2 = some a →
        (get_next_pcm_block dev fuel w).1.bytes_read < w.data_length)) := by
  have hbs : BLOCK_SIZE = 512 := rfl
  have h32 : pow2_32 = 4294967296 := rfl
  constructor
  · intro dev fuel w hno
    match fuel with
    | 0 => exact Nat.le_refl _
    | fuel + 1 =>
      rw [get_next_pcm_block]
      by_cases h0 : w.bytes_read = 0
      · rw [if_pos h0, h0]
        exact Nat.zero_le _
      · rw [if_neg h0]
        simp only
        by_cases hend : w.data_length ≤ (w.bytes_read + BLOCK_SIZE) % pow2_32
        · rw [if_pos hend]
        · rw [if_neg hend]
          rcases hdev : dev ((w.start_block_address +
              ((w.first_byte + w.bytes_read) % pow2_32) / BLOCK_SIZE) % pow2_32) with _ | blk
          · exact Nat.le_refl _
          · simp only
            simp only [hbs, h32] at hno ⊢
            omega
  · intro dev fuel w hnz hle
    match fuel with
    | 0 => exact ⟨hle, by intro a h; exact absurd h (by simp [get_next_pcm_block])⟩
    | fuel + 1 =>
      rw [get_next_pcm_block, if_neg hnz]
      simp only
      by_cases hend : w.data_length ≤ (w.bytes_read + BLOCK_SIZE) % pow2_32
      · rw [if_pos hend]
        exact ⟨hle, by intro a h; exact absurd h (by simp)⟩
      · rw [if_neg hend]
        rcases hdev : dev ((w.start_block_address +
            ((w.first_byte + w.bytes_read) % pow2_32) / BLOCK_SIZE) % pow2_32) with _ | blk
        · exact ⟨hle, by intro a h; exact absurd h (by simp)⟩
        · simp only
          constructor
          · omega
          · intro a _
            omega

theorem c3_bytes_read_monotone_bounded_witness :
    cursor_mid.bytes_read ≤
      (get_next_pcm_block dev_all_blocks 1 cursor_mid).1.bytes_read ∧
    (get_next_pcm_block dev_all_blocks 1 cursor_end).1.bytes_read ≤
      cursor_end.data_length :=
  ⟨c3_bytes_read_monotone_bounded.1 dev_all_blocks 1 cursor_mid (by decide),
   (c3_bytes_read_monotone_bounded.2 dev_all_blocks 1 cursor_end (by decide) (by decide)).1⟩

/-! ## exfat.rs -/

inductive FsError where
  | NoBootSector
  | InvalidBootSignature
  | ReadFail
  | ErrorDecodingName
deriving DecidableEq

inductive FileType where
  | Directory
  | File
deriving DecidableEq

/-- The candidate boot sector addresses (TRY_BOOT_SECOTRS in the source). -/
def TRY_BOOT_SECTORS : List Nat := [0, 65536, 32768, 2048]

/-- The 8-byte exFAT filesystem name, EXFAT followed by three spaces. -/
def FILESYSTEM_NAME : List Nat := [69, 88, 70, 65, 84, 32, 32, 32]

def BOOT_SIGNATURE : List Nat := [85, 170]

/-- The candidate loop of get_boot_sector. -/
def get_boot_sector_go (dev : Nat → Option (List Nat)) :
    List Nat → Except FsError (List Nat)
  | [] => .error .NoBootSector
  | boot_sector :: rest =>
    match dev boot_sector with
    | none => .error .ReadFail
    | some sector =>
      if get_bytes_section sector 3 8 = FILESYSTEM_NAME then
        if get_bytes_section sector 510 2 = BOOT_SIGNATURE then .ok sector
        else .error .InvalidBootSignature
      else get_boot_sector_go dev rest

/-- exfat::get_boot_sector: scan the fixed candidate sectors in order. -/
def get_boot_sector (dev : Nat → Option (List Nat)) : Except FsError (List Nat) :=
  get_boot_sector_go dev TRY_BOOT_SECTORS

/-- Every candidate in the list reads successfully and has a non-matching
filesystem name (so the scan walks past all of them). -/
def reads_ok_no_match (dev : Nat → Option (List Nat)) (l : List Nat) : Prop :=
  ∀ a ∈ l, ∃ s, dev a = some s ∧ get_bytes_section s 3 8 ≠ FILESYSTEM_NAME

lemma get_boot_sector_go_skip (dev : Nat → Option (List Nat)) :
    ∀ (pre rest : List Nat), reads_ok_no_match dev pre →
      get_boot_sector_go dev (pre ++ rest) = get_boot_sector_go dev rest := by
  intro pre
  induction pre with
  | nil => intro rest _; rfl
  | cons a pre ih =>
    intro rest hok
    obtain ⟨s, hs, hname⟩ := hok a (by simp)
    rw [List.cons_append, get_boot_sector_go, hs]
    simp only [if_neg hname]
    exact ih rest (fun b hb => hok b (by simp [hb]))

/-- C6: the boot-sector search reads the fixed candidates in order; at the
first candidate whose filesystem name at offset 3 matches, it returns the
sector if the boot signature in the final two bytes is valid and fails with
InvalidBootSignature otherwise; a read failure before any name match fails
with ReadFail; and if every candidate reads fine without a name match, it
fails with NoBootSector. -/
theorem c6_boot_sector_search :
    (∀ (dev : Nat → Option (List Nat)) (pre : List Nat) (a : Nat) (post : List Nat),
      TRY_BOOT_SECTORS = pre ++ a :: post →
      reads_ok_no_match dev pre →
      ((dev a = none → get_boot_sector dev = .error .ReadFail) ∧
       (∀ s, dev a = some s → get_bytes_section s 3 8 = FILESYSTEM_NAME →
         ((get_bytes_section s 510 2 = BOOT_SIGNATURE → get_boot_sector dev = .ok s) ∧
          (get_bytes_section s 510 2 ≠ BOOT_SIGNATURE →
            get_boot_sector dev = .error .InvalidBootSignature))))) ∧
    (∀ dev : Nat → Option (List Nat),
      reads_ok_no_match dev TRY_BOOT_SECTORS →
      get_boot_sector dev = .error .NoBootSector) := by
  constructor
  · intro dev pre a post hsplit hok
    have hgo : get_boot_sector dev = get_boot_sector_go dev (a :: post) := by
      rw [get_boot_sector, hsplit, get_boot_sector_go_skip dev pre (a :: post) hok]
    constructor
    · intro hdev
      rw [hgo, get_boot_sector_go, hdev]
    · intro s hdev hname
      constructor
      · intro hsig
        rw [hgo, get_boot_sector_go, hdev]
        simp only [if_pos hname, if_pos hsig]
      · intro hsig
        rw [hgo, get_boot_sector_go, hdev]
        simp only [if_pos hname, if_neg hsig]
  · intro dev hok
    have := get_boot_sector_go_skip dev TRY_BOOT_SECTORS [] hok
    rw [List.append_nil] at this
    rw [get_boot_sector, this]
    rfl

/-- A sector with no exFAT name: reads as all zero bytes. -/
def zero_sector : List Nat := List.replicate 512 0

/-- A valid boot sector: name at offset 3, signature in the last two bytes. -/
def good_sector : List Nat :=
  List.replicate 3 0 ++ FILESYSTEM_NAME ++ List.replicate 499 0 ++ BOOT_SIGNATURE

/-- A sector with a matching name but an invalid boot signature. -/
def bad_sig_sector : List Nat :=
  List.replicate 3 0 ++ FILESYSTEM_NAME ++ List.replicate 501 0

def c6_dev_good : Nat → Option (List Nat) := fun a =>
  if a = 32768 then some good_sector else some zero_sector

def c6_dev_badsig : Nat → Option (List Nat) := fun a =>
  if a = 0 then some bad_sig_sector else some zero_sector

def c6_dev_nomatch : Nat → Option (List Nat) := fun _ => some zero_sector

theorem c6_boot_sector_search_witness :
    get_boot_sector c6_dev_good = .ok good_sector ∧
    get_boot_sector c6_dev_badsig = .error .InvalidBootSignature ∧
    get_boot_sector c6_dev_nomatch = .error .NoBootSector := by
  refine ⟨?_, ?_, ?_⟩
  · exact ((c6_boot_sector_search.1 c6_dev_good [0, 65536] 32768 [2048] rfl
      (by
        intro b hb
        have hb' : b = 0 ∨ b = 65536 := by simpa using hb
        rcases hb' with h | h <;> subst h <;>
          exact ⟨zero_sector, rfl, by decide⟩)).2 good_sector rfl (by decide)).1 (by decide)
  · exact ((c6_boot_sector_search.1 c6_dev_badsig [] 0 [65536, 32768, 2048] rfl
      (by intro b hb; simp at hb)).2 bad_sig_sector rfl (by decide)).2 (by decide)
  · exact c6_boot_sector_search.2 c6_dev_nomatch
      (by
        intro b hb
        exact ⟨zero_sector, rfl, by decide⟩)

/-- ExFat: the volume parameters extracted from the boot sector (the block
device itself is passed separately in this embedding). -/
structure ExFat where
  partition_offset : Nat
  volume_length : Nat
  fat_offset : Nat
  fat_length : Nat
  cluster_heap_offset : Nat
  cluster_count : Nat
  first_cluster_of_root_directory : Nat
  volume_serial_number : Nat
  volume_flags : Nat
  bytes_per_sector_shift : Nat
  sectors_per_cluster_shift : Nat
  number_of_fats : Nat
  drive_select : Nat
  percent_in_use : Nat
deriving DecidableEq

/-- ExFat::calc_cluster_sector.  partition_offset is a u64 cast to u32, the
u32 subtraction cluster - 2 wraps, 1 << shift masks the shift amount by 31,
and the additions and the multiplication wrap mod 2^32, all as in a Rust
release build. -/
def calc_cluster_sector (fs : ExFat) (cluster : Nat) : Nat :=
  (fs.partition_offset % pow2_32 + fs.cluster_heap_offset +
    ((cluster + pow2_32 - 2) % pow2_32) *
      2 ^ (fs.sectors_per_cluster_shift % 32)) % pow2_32

/-- C7: for every volume geometry without u32 overflow and every cluster at
least 2, calc_cluster_sector computes partition_offset + cluster_heap_offset
+ (cluster - 2) * sectors_per_cluster (with sectors_per_cluster =
2 ^ sectors_per_cluster_shift); it is strictly increasing in the cluster
number, and cluster 2 maps to partition_offset + cluster_heap_offset, the
first sector of the cluster heap. -/
theorem c7_cluster_to_sector :
    ∀ fs : ExFat, fs.sectors_per_cluster_shift < 32 →
      ((∀ cluster : Nat, 2 ≤ cluster → cluster < pow2_32 →
        fs.partition_offset + fs.cluster_heap_offset +
          (cluster - 2) * 2 ^ fs.sectors_per_cluster_shift < pow2_32 →
        calc_cluster_sector fs cluster =
          fs.partition_offset + fs.cluster_heap_offset +
            (cluster - 2) * 2 ^ fs.sectors_per_cluster_shift) ∧
       (fs.partition_offset + fs.cluster_heap_offset < pow2_32 →
        calc_cluster_sector fs 2 =
          fs.partition_offset + fs.cluster_heap_offset) ∧
       (∀ c1 c2 : Nat, 2 ≤ c1 → c1 < c2 → c2 < pow2_32 →
        fs.partition_offset + fs.cluster_heap_offset +
          (c2 - 2) * 2 ^ fs.sectors_per_cluster_shift < pow2_32 →
        calc_cluster_sector fs c1 < calc_cluster_sector fs c2)) := by
  intro fs hshift
  have hval : ∀ cluster : Nat, 2 ≤ cluster → cluster < pow2_32 →
      fs.partition_offset + fs.cluster_heap_offset +
        (cluster - 2) * 2 ^ fs.sectors_per_cluster_shift < pow2_32 →
      calc_cluster_sector fs cluster =
        fs.partition_offset + fs.cluster_heap_offset +
          (cluster - 2) * 2 ^ fs.sectors_per_cluster_shift := by
    intro cluster h2 hlt hno
    have hsm : fs.sectors_per_cluster_shift % 32 = fs.sectors_per_cluster_shift :=
      Nat.mod_eq_of_lt hshift
    have hwrap : (cluster + pow2_32 - 2) % pow2_32 = cluster - 2 := by
      simp only [pow2_32] at hlt ⊢
      omega
    rw [calc_cluster_sector, hsm, hwrap]
    have hpo : fs.partition_offset % pow2_32 = fs.partition_offset :=
      Nat.mod_eq_of_lt (by omega)
    rw [hpo]
    exact Nat.mod_eq_of_lt hno
  refine ⟨hval, ?_, ?_⟩
  · intro hno
    have := hval 2 (Nat.le_refl 2) (by rw [show pow2_32 = 4294967296 from rfl]; omega)
      (by simpa using hno)
    simpa using this
  · intro c1 c2 h1 hlt hc2 hno
    have hmono : (c1 - 2) * 2 ^ fs.sectors_per_cluster_shift ≤
        (c2 - 2) * 2 ^ fs.sectors_per_cluster_shift :=
      Nat.mul_le_mul_right _ (by omega)
    rw [hval c1 h1 (by omega) (by omega), hval c2 (by omega) hc2 hno]
    have hp : 0 < 2 ^ fs.sectors_per_cluster_shift := Nat.pos_pow_of_pos _ (by norm_num)
    have : (c1 - 2) * 2 ^ fs.sectors_per_cluster_shift <
        (c2 - 2) * 2 ^ fs.sectors_per_cluster_shift :=
      Nat.mul_lt_mul_of_lt_of_le (by omega) (Nat.le_refl _) hp
    omega

def c7_fs : ExFat := ⟨100, 0, 0, 0, 24, 0, 4, 0, 0, 9, 3, 1, 0, 0⟩

theorem c7_cluster_to_sector_witness :
    calc_cluster_sector c7_fs 5 =
      c7_fs.partition_offset + c7_fs.cluster_heap_offset +
        (5 - 2) * 2 ^ c7_fs.sectors_per_cluster_shift ∧
    calc_cluster_sector c7_fs 2 =
      c7_fs.partition_offset + c7_fs.cluster_heap_offset ∧
    calc_cluster_sector c7_fs 2 < calc_cluster_sector c7_fs 5 :=
  ⟨(c7_cluster_to_sector c7_fs (by decide)).1 5 (by decide) (by decide) (by decide),
   (c7_cluster_to_sector c7_fs (by decide)).2.1 (by decide),
   (c7_cluster_to_sector c7_fs (by decide)).2.2 2 5 (by decide) (by decide) (by decide)
     (by decide)⟩

/-! ### Directory listing (ExFat::list_directory) -/

/-- Splitting a 512-byte sector into its 16 directory entries of 32 bytes
(sector.slice_by with DIRECTORY_ENTRIES_PER_SECTOR and
DIRECORY_ENTRY_BYTES). -/
def entriesOf (sec : List Nat) : List (List Nat) :=
  (List.range 16).map (fun i => get_bytes_section sec (32 * i) 32)

/-- UTF-8 encoded size of a unicode scalar value (heapless String stores
UTF-8, so its 255-byte capacity is measured in encoded bytes). -/
def utf8_size (c : Nat) : Nat :=
  if c < 128 then 1 else if c < 2048 then 2 else if c < 65536 then 3 else 4

def name_utf8_len (name : List Nat) : Nat := (name.map utf8_size).sum

/-- String::push on the heapless String of capacity
MAX_FILE_NAME_LENGTH = 255 bytes: fails once the encoded name would exceed
the capacity.  Names are embedded as lists of unicode scalar values. -/
def push_name_char (name : List Nat) (c : Nat) : Option (List Nat) :=
  if name_utf8_len name + utf8_size c ≤ 255 then some (name ++ [c]) else none

/-- The name-decoding loop of list_directory: core::char::decode_utf16 over
the code units of one file-name entry, pushing each decoded character and
failing with ErrorDecodingName on an unpaired surrogate or a push that
exceeds the name capacity. -/
def decode_utf16_push (name : List Nat) : List Nat → Except FsError (List Nat)
  | [] => .ok name
  | u :: rest =>
    if 55296 ≤ u ∧ u < 56320 then
      match rest with
      | [] => .error .ErrorDecodingName
      | v :: rest2 =>
        if 56320 ≤ v ∧ v < 57344 then
          match push_name_char name (65536 + (u - 55296) * 1024 + (v - 56320)) with
          | some name2 => decode_utf16_push name2 rest2
          | none => .error .ErrorDecodingName
        else .error .ErrorDecodingName
    else if 56320 ≤ u ∧ u < 57344 then .error .ErrorDecodingName
    else
      match push_name_char name u with
      | some name2 => decode_utf16_push name2 rest
      | none => .error .ErrorDecodingName

/-- The UTF-16LE code units of one file-name entry: the 32 bytes split into
16 pairs, the first pair (type byte and flags) skipped, each remaining pair
read little-endian, zero units dropped as padding. -/
def name_entry_units (e : List Nat) : List Nat :=
  ((((List.range 16).map (fun i => get_bytes_section e (2 * i) 2)).drop 1).map
    leVal).filter (fun x => x ≠ 0)

/-- FsEntry; the name is the list of decoded unicode scalar values. -/
structure FsEntry where
  name : List Nat
  file_type : FileType
  first_cluster : Nat
  valid_data_length : Nat
  data_length : Nat
deriving DecidableEq

def FsEntry.new : FsEntry := ⟨[], .Directory, 0, 0, 0⟩

/-- Processing of one secondary directory entry inside the
following-entries loop of list_directory: a stream-extension entry (0xC0)
fills in the lengths and first cluster, a file-name entry (0xC1) decodes
and appends name characters, anything else is ignored. -/
def apply_secondary (fe : FsEntry) (e : List Nat) : Except FsError FsEntry :=
  let entry_type := byteAt e 0
  if entry_type = 192 then
    .ok { fe with
      valid_data_length := le64 e 8,
      data_length := le64 e 24,
      first_cluster := le32 e 20 }
  else if entry_type = 193 then
    match decode_utf16_push fe.name (name_entry_units e) with
    | .ok name2 => .ok { fe with name := name2 }
    | .error err => .error err
  else .ok fe

def apply_secondaries (fe : FsEntry) : List (List Nat) → Except FsError FsEntry
  | [] => .ok fe
  | e :: rest =>
    match apply_secondary fe e with
    | .ok fe2 => apply_secondaries fe2 rest
    | .error err => .error err

/-- The FsEntry built for one primary entry (0x85) from the lookahead
sequence of entries that follows it: the file attribute's bit 4 decides
file or directory, then every secondary entry is applied in order. -/
def build_fs_entry (primary : List Nat) (secondaries : List (List Nat)) :
    Except FsError FsEntry :=
  let file_attribute := le16 primary 4
  let ft := if bit_on file_attribute 4 then FileType.Directory else FileType.File
  apply_secondaries { FsEntry.new with file_type := ft } secondaries

/-- The combined lookahead sequence presented for a primary entry at index
entry_no of the current sector: the current sector's entries chained with
the pre-fetched next sector's entries, skipping up to just past the primary
and taking following_entries_no + 1 entries (the count byte plus one, as in
the source). -/
def lookahead (sec next_sec : List Nat) (entry_no cnt : Nat) : List (List Nat) :=
  ((entriesOf sec ++ entriesOf next_sec).drop (entry_no + 1)).take (cnt + 1)

/-- Vec::push with the DIR_LENGTH_LIMIT = 205 capacity; the push result is
ignored, so entries beyond the capacity are silently dropped. -/
def push_limited (acc : List FsEntry) (fe : FsEntry) : List FsEntry :=
  if acc.length < 205 then acc ++ [fe] else acc

/-- The inner per-sector loop of list_directory, walking the 16 entries of
the current sector: a zero type byte ends the whole directory, a primary
entry (0x85) pre-fetches the next sector, builds its FsEntry from the
lookahead sequence and pushes it, and every other entry type is skipped.
Returns whether the end-of-directory marker was found, with the
accumulated entries. -/
def scan_go (dev : Nat → Option (List Nat)) (sector_addr : Nat) (sec : List Nat) :
    List (List Nat) → Nat → List FsEntry → Except FsError (Bool × List FsEntry)
  | [], _, acc => .ok (false, acc)
  | e :: rest, entry_no, acc =>
    let entry_type := byteAt e 0
    if entry_type = 0 then .ok (true, acc)
    else if entry_type = 133 then
      match dev (sector_addr + 1) with
      | none => .error .ReadFail
      | some next_sec =>
        let following_entries_no := byteAt e 1
        match build_fs_entry e (lookahead sec next_sec entry_no following_entries_no) with
        | .error err => .error err
        | .ok fe => scan_go dev sector_addr sec rest (entry_no + 1) (push_limited acc fe)
    else scan_go dev sector_addr sec rest (entry_no + 1) acc

def scan_sector (dev : Nat → Option (List Nat)) (sector_addr : Nat) (sec : List Nat)
    (acc : List FsEntry) : Except FsError (Bool × List FsEntry) :=
  scan_go dev sector_addr sec (entriesOf sec) 0 acc

/-- The outer while loop of list_directory: read a sector (a failed read is
ReadFail), scan its entries, stop once the end-of-directory marker was
seen.  The Rust loop is unbounded; this embedding takes explicit fuel, and
any fuel of at least the number of sectors the walk visits gives the
loop's behaviour. -/
def list_directory_loop (dev : Nat → Option (List Nat)) :
    Nat → Nat → List FsEntry → Except FsError (List FsEntry)
  | 0, _, _ => .error .ReadFail
  | fuel + 1, sector_addr, acc =>
    match dev sector_addr with
    | none => .error .ReadFail
    | some sec =>
      match scan_sector dev sector_addr sec acc with
      | .error err => .error err
      | .ok (true, acc2) => .ok acc2
      | .ok (false, acc2) => list_directory_loop dev fuel (sector_addr + 1) acc2

/-- ExFat::list_directory, from the start sector of the given first
cluster. -/
def list_directory (dev : Nat → Option (List Nat)) (fs : ExFat)
    (first_cluster fuel : Nat) : Except FsError (List FsEntry) :=
  list_directory_loop dev fuel (calc_cluster_sector fs first_cluster) []

/-- Mirror of list_directory_loop that reports whether the run's first
failure is a file-name decoding failure (the only source of
ErrorDecodingName in the scan). -/
def listing_hits_decode_failure (dev : Nat → Option (List Nat)) :
    Nat → Nat → List FsEntry → Bool
  | 0, _, _ => false
  | fuel + 1, sector_addr, acc =>
    match dev sector_addr with
    | none => false
    | some sec =>
      match scan_sector dev sector_addr sec acc with
      | .error .ErrorDecodingName => true
      | .error _ => false
      | .ok (true, _) => false
      | .ok (false, acc2) => listing_hits_decode_failure dev fuel (sector_addr + 1) acc2

lemma list_directory_loop_hits (dev : Nat → Option (List Nat)) :
    ∀ (fuel sector_addr : Nat) (acc : List FsEntry),
      listing_hits_decode_failure dev fuel sector_addr acc = true →
      list_directory_loop dev fuel sector_addr acc = .error .ErrorDecodingName := by
  intro fuel
  induction fuel with
  | zero =>
    intro sector_addr acc h
    exact absurd h (by simp [listing_hits_decode_failure])
  | succ n ih =>
    intro sector_addr acc h
    rw [listing_hits_decode_failure] at h
    rw [list_directory_loop]
    rcases hdev : dev sector_addr with _ | sec
    · simp only [hdev] at h
      exact Bool.noConfusion h
    · simp only [hdev] at h ⊢
      rcases hscan : scan_sector dev sector_addr sec acc with err | res
      · rcases err with _ | _ | _ | _ <;> simp_all
      · rcases res with ⟨done, acc2⟩
        rcases done with _ | _
        · simp only [hscan] at h ⊢
          exact ih (sector_addr + 1) acc2 h
        · simp only [hscan] at h
          exact Bool.noConfusion h

/-- C9: whenever decoding a file name fails during a directory listing (an
invalid UTF-16 code-unit sequence or a name exceeding the bounded
capacity), the whole listing fails with ErrorDecodingName, and no partial
directory of file records is returned to the caller. -/
theorem c9_decode_failure_fails_listing :
    ∀ (dev : Nat → Option (List Nat)) (fs : ExFat) (first_cluster fuel : Nat),
      listing_hits_decode_failure dev fuel (calc_cluster_sector fs first_cluster) []
        = true →
      list_directory dev fs first_cluster fuel = .error .ErrorDecodingName ∧
      ∀ out, list_directory dev fs first_cluster fuel ≠ .ok out := by
  intro dev fs first_cluster fuel h
  have := list_directory_loop_hits dev fuel (calc_cluster_sector fs first_cluster) [] h
  refine ⟨this, ?_⟩
  intro out hout
  rw [list_directory] at hout
  rw [this] at hout
  exact Except.noConfusion hout

/-- The all-zero volume geometry: its root cluster 2 starts at sector 0. -/
def c9_fs : ExFat := ⟨0, 0, 0, 0, 0, 0, 2, 0, 0, 9, 0, 1, 0, 0⟩

/-- A directory sector whose first entry is a primary with one secondary: a
file-name entry carrying the single code unit 0xD800, an unpaired high
surrogate, which fails UTF-16 decoding. -/
def c9_bad_sector : List Nat :=
  [133, 1] ++ List.replicate 30 0 ++ [193, 0, 0, 216]

def c9_dev : Nat → Option (List Nat) := fun a =>
  if a = 0 then some c9_bad_sector else if a = 1 then some [] else none

theorem c9_decode_failure_fails_listing_witness :
    list_directory c9_dev c9_fs 2 3 = .error .ErrorDecodingName :=
  (c9_decode_failure_fails_listing c9_dev c9_fs 2 3 (by decide)).1

/-- The directory as one flat sequence of 32-byte entries, with the sector
boundaries erased: the reference layout against which the boundary-crossing
lookahead is compared. -/
def flat_entries (sectors : List (List Nat)) : List (List Nat) :=
  (sectors.map entriesOf).flatten

lemma entriesOf_length (sec : List Nat) : (entriesOf sec).length = 16 := by
  simp [entriesOf]

lemma flat_entries_cons (a : List Nat) (l : List (List Nat)) :
    flat_entries (a :: l) = entriesOf a ++ flat_entries l := by
  simp [flat_entries]

lemma flat_entries_drop : ∀ (sectors : List (List Nat)) (s : Nat),
    s < sectors.length →
    (flat_entries sectors).drop (16 * s) =
      entriesOf (sectors.getD s []) ++ flat_entries (sectors.drop (s + 1)) := by
  intro sectors
  induction sectors with
  | nil => intro s h; exact absurd h (by simp)
  | cons a l ih =>
    intro s h
    match s with
    | 0 => simp [flat_entries_cons]
    | s + 1 =>
      have hidx : 16 * (s + 1) = (entriesOf a).length + 16 * s := by
        rw [entriesOf_length]; ring
      rw [flat_entries_cons, hidx, List.drop_append]
      have hs : s < l.length := by simpa using h
      rw [ih s hs]
      simp

lemma getD_of_lt (l : List (List Nat)) (n : Nat) (h : n < l.length) :
    l.getD n [] = l.get ⟨n, h⟩ := by
  rw [List.getD_eq_getElem?_getD, List.getElem?_eq_getElem h]
  simp [List.get_eq_getElem]

/-- C5: the combined lookahead sequence that list_directory presents for a
primary entry at index entry_no of sector s (current sector chained with
the pre-fetched next sector) is exactly the corresponding contiguous slice
of the boundary-free flattened directory, as long as the primary and the
entries taken after it fit inside the two-sector window; in particular it
contains all cnt + 1 entries (none is dropped at the sector boundary), and
the FsEntry built from it is identical to the one built from the flat
layout, wherever the boundary falls. -/
theorem c5_boundary_lossless :
    ∀ (sectors : List (List Nat)) (s entry_no cnt : Nat) (primary : List Nat),
      s + 1 < sectors.length →
      entry_no + 1 + (cnt + 1) ≤ 32 →
      lookahead (sectors.getD s []) (sectors.getD (s + 1) []) entry_no cnt =
        ((flat_entries sectors).drop (16 * s + (entry_no + 1))).take (cnt + 1) ∧
      (lookahead (sectors.getD s []) (sectors.getD (s + 1) []) entry_no cnt).length
        = cnt + 1 ∧
      build_fs_entry primary
          (lookahead (sectors.getD s []) (sectors.getD (s + 1) []) entry_no cnt) =
        build_fs_entry primary
          (((flat_entries sectors).drop (16 * s + (entry_no + 1))).take (cnt + 1)) := by
  intro sectors s entry_no cnt primary hs hfit
  have hslt : s < sectors.length := by omega
  have hdropcons : sectors.drop (s + 1) =
      sectors.getD (s + 1) [] :: sectors.drop (s + 2) := by
    rw [List.drop_eq_getElem_cons hs, getD_of_lt sectors (s + 1) hs]
    simp [List.get_eq_getElem]
  have hflat : (flat_entries sectors).drop (16 * s + (entry_no + 1)) =
      ((entriesOf (sectors.getD s []) ++ entriesOf (sectors.getD (s + 1) [])).drop
        (entry_no + 1)) ++ flat_entries (sectors.drop (s + 2)) := by
    rw [← List.drop_drop, flat_entries_drop sectors s hslt, hdropcons,
      flat_entries_cons, ← List.append_assoc]
    exact List.drop_append_of_le_length (by
      rw [List.length_append, entriesOf_length, entriesOf_length]
      omega)
  have hlen : ((entriesOf (sectors.getD s []) ++
      entriesOf (sectors.getD (s + 1) [])).drop (entry_no + 1)).length =
      32 - (entry_no + 1) := by
    rw [List.length_drop, List.length_append, entriesOf_length, entriesOf_length]
  have hmain : lookahead (sectors.getD s []) (sectors.getD (s + 1) []) entry_no cnt =
      ((flat_entries sectors).drop (16 * s + (entry_no + 1))).take (cnt + 1) := by
    rw [hflat, lookahead]
    rw [List.take_append_of_le_length (by rw [hlen]; omega)]
  refine ⟨hmain, ?_, ?_⟩
  · rw [lookahead, List.length_take, hlen]
    omega
  · rw [hmain]

/-- Two sectors holding one file record whose secondary entries cross the
sector boundary: the primary sits at entry 14 of the first sector with
count 2 (a stream-extension entry at entry 15 and a file-name entry that is
the first entry of the second sector). -/
def c5_sector0 : List Nat :=
  List.replicate 448 0 ++
  ([133, 2] ++ List.replicate 30 0) ++
  ([192] ++ List.replicate 19 0 ++ [9, 0, 0, 0] ++ List.replicate 8 0)

def c5_sector1 : List Nat :=
  [193, 0, 65, 0, 66, 0] ++ List.replicate 26 0

theorem c5_boundary_lossless_witness :
    lookahead ([c5_sector0, c5_sector1].getD 0 []) ([c5_sector0, c5_sector1].getD 1 [])
        14 2 =
      ((flat_entries [c5_sector0, c5_sector1]).drop (16 * 0 + (14 + 1))).take (2 + 1) ∧
    (lookahead ([c5_sector0, c5_sector1].getD 0 [])
        ([c5_sector0, c5_sector1].getD 1 []) 14 2).length = 2 + 1 ∧
    build_fs_entry ([133, 2] ++ List.replicate 30 0)
        (lookahead ([c5_sector0, c5_sector1].getD 0 [])
          ([c5_sector0, c5_sector1].getD 1 []) 14 2) =
      build_fs_entry ([133, 2] ++ List.replicate 30 0)
        (((flat_entries [c5_sector0, c5_sector1]).drop (16 * 0 + (14 + 1))).take
          (2 + 1)) :=
  c5_boundary_lossless [c5_sector0, c5_sector1] 0 14 2
    ([133, 2] ++ List.replicate 30 0) (by decide) (by decide)

end WavPlayer
